import Mathlib

/-!
Shallow embedding of the face-detection service in
`src/backend/face_service/app.py`: the `/detect_faces` request handler, the
filesystem effects of saving the upload and reading it back, werkzeug's
filename sanitizer, and the multi-scale cascade detection the handler invokes
through the vision library. The library internals (image codecs, pretrained
cascade stages) are not repository code; where the spec describes their
behavior they are modelled from the spec and marked as such.
-/

/-- An axis-aligned rectangle in pixel coordinates: top-left corner (x, y),
width w and height h. -/
structure Rect where
  x : Nat
  y : Nat
  w : Nat
  h : Nat
deriving DecidableEq, Repr

/-- A decoded single-channel raster: width, height and a row-major grid of
8-bit intensity values. -/
structure Raster where
  width : Nat
  height : Nat
  pixels : List (List Nat)
deriving DecidableEq, Repr

/-- A decoded BGR color image as produced by the image codec. -/
structure ColorImage where
  width : Nat
  height : Nat
  pixels : List (List (Nat × Nat × Nat))
deriving DecidableEq, Repr

/-- Luminance-weighted grayscale value of a BGR pixel, with the rounded
integer weights of the standard conversion (0.114 B + 0.587 G + 0.299 R). -/
def luma (p : Nat × Nat × Nat) : Nat :=
  (114 * p.1 + 587 * p.2.1 + 299 * p.2.2 + 500) / 1000

/-- The cv2.cvtColor call with COLOR_BGR2GRAY: convert a BGR image to a
grayscale raster of the same dimensions. -/
def cvtGray (img : ColorImage) : Raster :=
  ⟨img.width, img.height, img.pixels.map (fun row => row.map luma)⟩

/-- Detection parameters of the detectMultiScale call. The scale factor is
the exact rational sfNum / sfDen (the reference value 1.1 is 11 / 10). -/
structure DetectParams where
  sfNum : Nat
  sfDen : Nat
  minNeighbors : Nat
deriving DecidableEq, Repr

/-- Modelled from the spec: the scaled detection-window size at scale step k,
the base window grown by the scale factor k times, rounded down (spec 4.2
steps 1 and 2); the floor of base multiplied by the k-th power of the
rational num / den. -/
def winSize (base num den k : Nat) : Nat :=
  base * num ^ k / den ^ k

/-- Modelled from the spec: a bound on the number of scale steps explored,
large enough that every window still fitting inside the raster is reached
(spec 4.2 step 2 repeats until the window exceeds the raster). -/
def scaleSteps (r : Raster) : Nat :=
  r.width + r.height + 2

/-- Modelled from the spec: the list of scaled window sizes that still fit
inside the raster (spec 4.2 step 2). -/
def scaleSizes (baseW baseH num den : Nat) (r : Raster) : List (Nat × Nat) :=
  (List.range (scaleSteps r)).filterMap (fun k =>
    let wW := winSize baseW num den k
    let wH := winSize baseH num den k
    if wW ≤ r.width ∧ wH ≤ r.height then some (wW, wH) else none)

/-- Modelled from the spec: every placement of a window of the given size
inside the raster, slid at unit step granularity (spec 4.2 step 3). -/
def slidePositions (r : Raster) (wW wH : Nat) : List Rect :=
  (List.range (r.width - wW + 1)).flatMap (fun px =>
    (List.range (r.height - wH + 1)).map (fun py => ⟨px, py, wW, wH⟩))

/-- Modelled from the spec: the raw candidate windows across all scales and
positions that survive every stage of the rejection cascade (spec 4.2 steps
3 and 4). The pretrained cascade data is vision-library state, abstracted
as a predicate on windows. -/
def candidates (cascade : Raster → Rect → Bool) (baseW baseH num den : Nat)
    (r : Raster) : List Rect :=
  (scaleSizes baseW baseH num den r).flatMap (fun s =>
    (slidePositions r s.1 s.2).filter (fun c => cascade r c))

/-- Two rectangles overlap when their interiors intersect. -/
def overlaps (a b : Rect) : Bool :=
  decide (a.x < b.x + b.w) && decide (b.x < a.x + a.w) &&
    decide (a.y < b.y + b.h) && decide (b.y < a.y + a.h)

/-- Modelled from the spec: add a candidate to the first group holding a
window it overlaps, or start a new group (spec 4.2 step 5, grouping of
overlapping windows). -/
def addToGroups (gs : List (List Rect)) (c : Rect) : List (List Rect) :=
  match gs with
  | [] => [[c]]
  | g :: rest =>
    if g.any (fun m => overlaps c m) then (c :: g) :: rest
    else g :: addToGroups rest c

/-- Modelled from the spec: partition the candidate windows into overlap
groups (spec 4.2 step 5). -/
def groupsOf (cs : List Rect) : List (List Rect) :=
  cs.foldl addToGroups []

/-- Modelled from the spec: collapse a group into one representative
rectangle with the averaged bounds of the group (spec 4.2 step 5). -/
def avgRect (g : List Rect) : Rect :=
  ⟨(g.map Rect.x).sum / g.length, (g.map Rect.y).sum / g.length,
    (g.map Rect.w).sum / g.length, (g.map Rect.h).sum / g.length⟩

/-- Modelled from the spec: keep only groups with at least minNeighbors
overlapping candidates and collapse each into its representative; a zero
minNeighbors degenerately returns every raw candidate unmerged (spec 4.2
step 5). -/
def groupRects (minNbrs : Nat) (cs : List Rect) : List Rect :=
  if minNbrs = 0 then cs
  else ((groupsOf cs).filter (fun g => minNbrs ≤ g.length)).map avgRect

/-- Modelled from the spec: the detectMultiScale call of the cascade
classifier — multi-scale sliding-window scan followed by neighbor grouping
(spec 4.2). -/
def detectMultiScale (cascade : Raster → Rect → Bool) (baseW baseH : Nat)
    (r : Raster) (p : DetectParams) : List Rect :=
  groupRects p.minNeighbors (candidates cascade baseW baseH p.sfNum p.sfDen r)

/-- An uploaded multipart file: its declared filename and raw byte content. -/
structure UploadedFile where
  filename : String
  content : List Nat
deriving DecidableEq, Repr

/-- The request data the handler consumes: multipart file parts keyed by
form-field name. -/
structure HttpRequest where
  files : List (String × UploadedFile)
deriving DecidableEq, Repr

/-- The JSON body of a handler response. -/
inductive ResponseBody where
  | errorBody (msg : String)
  | successBody (boxes : List Rect) (count : Nat)
deriving DecidableEq, Repr

/-- The outcome of handling one request: an HTTP response with a status
code, or an unhandled exception escaping the handler. -/
inductive HandlerResult where
  | response (body : ResponseBody) (status : Nat)
  | exception (msg : String)
deriving DecidableEq, Repr

/-- The server's upload-directory filesystem: a map from path to file
bytes. -/
abbrev Fs := List (String × List Nat)

/-- The UPLOAD_DIR constant of app.py. -/
def UPLOAD_DIR : String := "uploads"

/-- Characters kept by werkzeug's filename sanitizer: ASCII letters, digits,
underscore, dot and dash. -/
def keepChar (c : Char) : Bool :=
  c.isAlpha || c.isDigit || c == '_' || c == '.' || c == '-'

/-- Whitespace as split by the sanitizer. -/
def isSpaceChar (c : Char) : Bool :=
  c == ' ' || c == '\t' || c == '\n' || c == '\r'

/-- Drop leading and trailing dots and underscores. -/
def stripDotUnderscore (l : List Char) : List Char :=
  ((l.dropWhile (fun c => c == '.' || c == '_')).reverse.dropWhile
    (fun c => c == '.' || c == '_')).reverse

/-- Split a character list into its maximal whitespace-free words, dropping
all whitespace, as the python split call with no separator does. The second
argument accumulates the current word reversed. -/
def wordsAux : List Char → List Char → List (List Char)
  | [], acc => if acc.isEmpty then [] else [acc.reverse]
  | c :: cs, acc =>
    if isSpaceChar c then
      if acc.isEmpty then wordsAux cs [] else acc.reverse :: wordsAux cs []
    else wordsAux cs (c :: acc)

/-- werkzeug.utils.secure_filename on ASCII input: path separators become
spaces, whitespace-separated words are joined with single underscores,
characters outside the kept set are removed, and leading or trailing dots
and underscores are stripped. -/
def secure_filename (s : String) : String :=
  let replaced := s.toList.map (fun c => if c == '/' then ' ' else c)
  let joined := (List.intercalate ['_'] (wordsAux replaced [])).filter keepChar
  String.mk (stripDotUnderscore joined)

/-- The werkzeug FileStorage.save call: write the bytes at the given path.
Opening the existing upload directory itself for writing (the path with an
empty final component) raises IsADirectoryError. -/
def saveFile (fs : Fs) (path : String) (content : List Nat) : Except String Fs :=
  if path = UPLOAD_DIR ++ "/" then Except.error ("IsADirectoryError")
  else Except.ok ((path, content) :: fs)

/-- The cv2.imread call over the modelled filesystem: read the file at the
path and decode its bytes; None when the file is missing or its bytes are
not a valid image. The codecs are vision-library code, abstracted as the
decode argument. -/
def imread (decode : List Nat → Option ColorImage) (fs : Fs) (path : String) :
    Option ColorImage :=
  (List.lookup path fs).bind decode

/-- The detect_faces POST handler of app.py, threaded over the
upload-directory filesystem. The decode argument abstracts the vision
library's image codecs, cascade its pretrained classifier stages, and
baseW/baseH the classifier-defined base window size. -/
def detect_faces (decode : List Nat → Option ColorImage)
    (cascade : Raster → Rect → Bool) (baseW baseH : Nat)
    (req : HttpRequest) (fs : Fs) : HandlerResult × Fs :=
  match List.lookup ("file") req.files with
  | none => (HandlerResult.response (ResponseBody.errorBody ("no file")) 400, fs)
  | some f =>
    let fname := secure_filename f.filename
    let path := UPLOAD_DIR ++ "/" ++ fname
    match saveFile fs path f.content with
    | Except.error e => (HandlerResult.exception e, fs)
    | Except.ok fs' =>
      match imread decode fs' path with
      | none =>
        (HandlerResult.response (ResponseBody.errorBody ("invalid image")) 400, fs')
      | some img =>
        let gray := cvtGray img
        let boxes := detectMultiScale cascade baseW baseH gray ⟨11, 10, 5⟩
        (HandlerResult.response
          (ResponseBody.successBody boxes boxes.length) 200, fs')

/-! Helper lemmas about the detector. -/

theorem winSize_ge (base num den k : Nat) (hnd : den ≤ num) (hd : 0 < den) :
    base ≤ winSize base num den k := by
  have hpow : den ^ k ≤ num ^ k := Nat.pow_le_pow_left hnd k
  have hpos : 0 < den ^ k := Nat.pos_pow_of_pos k hd
  rw [winSize, Nat.le_div_iff_mul_le hpos]
  exact Nat.mul_le_mul_left base hpow

theorem mem_scaleSizes (baseW baseH num den : Nat) (r : Raster)
    (s : Nat × Nat) (hs : s ∈ scaleSizes baseW baseH num den r) :
    ∃ k, winSize baseW num den k = s.1 ∧ winSize baseH num den k = s.2 ∧
      s.1 ≤ r.width ∧ s.2 ≤ r.height := by
  rw [scaleSizes, List.mem_filterMap] at hs
  obtain ⟨k, -, hk⟩ := hs
  by_cases hc : winSize baseW num den k ≤ r.width ∧ winSize baseH num den k ≤ r.height
  · rw [if_pos hc] at hk
    obtain ⟨h1, h2⟩ := hc
    cases hk
    exact ⟨k, rfl, rfl, h1, h2⟩
  · rw [if_neg hc] at hk
    cases hk

theorem mem_slidePositions (r : Raster) (wW wH : Nat) (c : Rect)
    (hc : c ∈ slidePositions r wW wH) :
    c.w = wW ∧ c.h = wH ∧ c.x < r.width - wW + 1 ∧ c.y < r.height - wH + 1 := by
  rw [slidePositions, List.mem_flatMap] at hc
  obtain ⟨px, hpx, hmem⟩ := hc
  rw [List.mem_map] at hmem
  obtain ⟨py, hpy, heq⟩ := hmem
  rw [List.mem_range] at hpx hpy
  subst heq
  exact ⟨rfl, rfl, hpx, hpy⟩

theorem mem_candidates (cascade : Raster → Rect → Bool)
    (baseW baseH num den : Nat) (r : Raster) (c : Rect)
    (hnd : den ≤ num) (hd : 0 < den)
    (hc : c ∈ candidates cascade baseW baseH num den r) :
    c.x + c.w ≤ r.width ∧ c.y + c.h ≤ r.height ∧ baseW ≤ c.w ∧ baseH ≤ c.h := by
  rw [candidates, List.mem_flatMap] at hc
  obtain ⟨s, hs, hmem⟩ := hc
  rw [List.mem_filter] at hmem
  obtain ⟨hslide, -⟩ := hmem
  obtain ⟨k, hk1, hk2, hle1, hle2⟩ := mem_scaleSizes baseW baseH num den r s hs
  obtain ⟨hw, hh, hx, hy⟩ := mem_slidePositions r s.1 s.2 c hslide
  have hbW : baseW ≤ s.1 := hk1 ▸ winSize_ge baseW num den k hnd hd
  have hbH : baseH ≤ s.2 := hk2 ▸ winSize_ge baseH num den k hnd hd
  refine ⟨?_, ?_, ?_, ?_⟩ <;> omega

theorem mem_addToGroups (gs : List (List Rect)) (c : Rect) (g : List Rect)
    (x : Rect) (hg : g ∈ addToGroups gs c) (hx : x ∈ g) :
    (∃ g0 ∈ gs, x ∈ g0) ∨ x = c := by
  induction gs with
  | nil =>
    simp only [addToGroups, List.mem_singleton] at hg
    subst hg
    rcases List.mem_singleton.mp hx with h
    exact Or.inr h
  | cons g1 rest ih =>
    rw [addToGroups] at hg
    by_cases hov : g1.any (fun m => overlaps c m)
    · rw [if_pos hov] at hg
      rcases List.mem_cons.mp hg with h | h
      · subst h
        rcases List.mem_cons.mp hx with h | h
        · exact Or.inr h
        · exact Or.inl ⟨g1, List.mem_cons_self g1 rest, h⟩
      · exact Or.inl ⟨g, List.mem_cons_of_mem g1 h, hx⟩
    · rw [if_neg hov] at hg
      rcases List.mem_cons.mp hg with h | h
      · subst h
        exact Or.inl ⟨g, List.mem_cons_self g rest, hx⟩
      · rcases ih h with ⟨g0, hg0, hxg0⟩ | h
        · exact Or.inl ⟨g0, List.mem_cons_of_mem g1 hg0, hxg0⟩
        · exact Or.inr h

theorem mem_foldl_addToGroups (cs : List Rect) (gs : List (List Rect))
    (g : List Rect) (x : Rect) (hg : g ∈ cs.foldl addToGroups gs) (hx : x ∈ g) :
    (∃ g0 ∈ gs, x ∈ g0) ∨ x ∈ cs := by
  induction cs generalizing gs with
  | nil =>
    exact Or.inl ⟨g, hg, hx⟩
  | cons c rest ih =>
    rw [List.foldl_cons] at hg
    rcases ih (addToGroups gs c) hg with ⟨g0, hg0, hxg0⟩ | h
    · rcases mem_addToGroups gs c g0 x hg0 hxg0 with ⟨g1, hg1, hxg1⟩ | h
      · exact Or.inl ⟨g1, hg1, hxg1⟩
      · exact Or.inr (h ▸ List.mem_cons_self c rest)
    · exact Or.inr (List.mem_cons_of_mem c h)

theorem mem_groupsOf (cs : List Rect) (g : List Rect) (x : Rect)
    (hg : g ∈ groupsOf cs) (hx : x ∈ g) : x ∈ cs := by
  rcases mem_foldl_addToGroups cs [] g x hg hx with ⟨g0, hg0, -⟩ | h
  · cases hg0
  · exact h

theorem sum_le_length_mul (l : List Nat) (c : Nat) (h : ∀ v ∈ l, v ≤ c) :
    l.sum ≤ l.length * c := by
  induction l with
  | nil => simp
  | cons a rest ih =>
    have ha := h a (List.mem_cons_self a rest)
    have hr := ih (fun v hv => h v (List.mem_cons_of_mem a hv))
    simp only [List.sum_cons, List.length_cons]
    calc a + rest.sum ≤ c + rest.length * c := Nat.add_le_add ha hr
    _ = (rest.length + 1) * c := by ring

theorem length_mul_le_sum (l : List Nat) (c : Nat) (h : ∀ v ∈ l, c ≤ v) :
    l.length * c ≤ l.sum := by
  induction l with
  | nil => simp
  | cons a rest ih =>
    have ha := h a (List.mem_cons_self a rest)
    have hr := ih (fun v hv => h v (List.mem_cons_of_mem a hv))
    simp only [List.sum_cons, List.length_cons]
    calc (rest.length + 1) * c = c + rest.length * c := by ring
    _ ≤ a + rest.sum := Nat.add_le_add ha hr

theorem sum_map_add_eq (g : List Rect) (f k : Rect → Nat) :
    (g.map f).sum + (g.map k).sum = (g.map (fun m => f m + k m)).sum := by
  induction g with
  | nil => simp
  | cons a rest ih =>
    simp only [List.map_cons, List.sum_cons]
    omega

theorem avg_pair_le (g : List Rect) (f k : Rect → Nat) (W : Nat)
    (hg : g ≠ []) (h : ∀ m ∈ g, f m + k m ≤ W) :
    (g.map f).sum / g.length + (g.map k).sum / g.length ≤ W := by
  have hn : 0 < g.length := List.length_pos.mpr hg
  have hsum : (g.map (fun m => f m + k m)).sum ≤ g.length * W := by
    have := sum_le_length_mul (g.map (fun m => f m + k m)) W (by
      intro v hv
      rw [List.mem_map] at hv
      obtain ⟨m, hm, hmv⟩ := hv
      exact hmv ▸ h m hm)
    simpa using this
  have hdiv : ((g.map f).sum + (g.map k).sum) / g.length ≤ W := by
    rw [sum_map_add_eq]
    calc (g.map (fun m => f m + k m)).sum / g.length
        ≤ g.length * W / g.length := Nat.div_le_div_right hsum
    _ = W := Nat.mul_div_cancel_left W hn
  refine le_trans ?_ hdiv
  rw [Nat.le_div_iff_mul_le hn, Nat.add_mul]
  exact Nat.add_le_add (Nat.div_mul_le_self _ _) (Nat.div_mul_le_self _ _)

theorem le_avg_map (g : List Rect) (f : Rect → Nat) (c : Nat)
    (hg : g ≠ []) (h : ∀ m ∈ g, c ≤ f m) :
    c ≤ (g.map f).sum / g.length := by
  have hn : 0 < g.length := List.length_pos.mpr hg
  rw [Nat.le_div_iff_mul_le hn, Nat.mul_comm]
  have := length_mul_le_sum (g.map f) c (by
    intro v hv
    rw [List.mem_map] at hv
    obtain ⟨m, hm, hmv⟩ := hv
    exact hmv ▸ h m hm)
  simpa using this

theorem mem_groupRects (minNbrs : Nat) (cs : List Rect) (b : Rect)
    (hb : b ∈ groupRects minNbrs cs) :
    b ∈ cs ∨ ∃ g, g ≠ [] ∧ (∀ m ∈ g, m ∈ cs) ∧ b = avgRect g := by
  rw [groupRects] at hb
  by_cases h0 : minNbrs = 0
  · rw [if_pos h0] at hb
    exact Or.inl hb
  · rw [if_neg h0] at hb
    rw [List.mem_map] at hb
    obtain ⟨g, hg, hgb⟩ := hb
    rw [List.mem_filter] at hg
    obtain ⟨hgrp, hlen⟩ := hg
    refine Or.inr ⟨g, ?_, fun m hm => mem_groupsOf cs g m hgrp hm, hgb.symm⟩
    intro hnil
    subst hnil
    simp at hlen
    omega

theorem groupRects_nil (minNbrs : Nat) : groupRects minNbrs [] = [] := by
  rw [groupRects, groupsOf]
  by_cases h0 : minNbrs = 0
  · rw [if_pos h0]
  · rw [if_neg h0]
    rfl

theorem scaleSizes_small (baseW baseH num den : Nat) (r : Raster)
    (hnd : den ≤ num) (hd : 0 < den)
    (hsmall : r.width < baseW ∨ r.height < baseH) :
    scaleSizes baseW baseH num den r = [] := by
  rw [scaleSizes, List.filterMap_eq_nil_iff]
  intro k _
  have h1 := winSize_ge baseW num den k hnd hd
  have h2 := winSize_ge baseH num den k hnd hd
  have hc : ¬(winSize baseW num den k ≤ r.width ∧
      winSize baseH num den k ≤ r.height) := by
    intro ⟨hw, hh⟩
    rcases hsmall with h | h <;> omega
  exact if_neg hc

theorem detectMultiScale_small (cascade : Raster → Rect → Bool)
    (baseW baseH : Nat) (r : Raster) (p : DetectParams)
    (hnd : p.sfDen ≤ p.sfNum) (hd : 0 < p.sfDen)
    (hsmall : r.width < baseW ∨ r.height < baseH) :
    detectMultiScale cascade baseW baseH r p = [] := by
  rw [detectMultiScale, candidates,
    scaleSizes_small baseW baseH p.sfNum p.sfDen r hnd hd hsmall]
  exact groupRects_nil p.minNeighbors

theorem string_append_right_empty (s t : String) (h : s ++ t = s) : t = "" := by
  have hl := congrArg String.length h
  rw [String.length_append] at hl
  have hz : t.length = 0 := by omega
  cases t with
  | mk d =>
    cases d with
    | nil => rfl
    | cons c cs => simp [String.length] at hz

theorem saveFile_ok (fs : Fs) (fname : String) (content : List Nat)
    (hn : fname ≠ "") :
    saveFile fs (UPLOAD_DIR ++ "/" ++ fname) content =
      Except.ok ((UPLOAD_DIR ++ "/" ++ fname, content) :: fs) := by
  have hne : UPLOAD_DIR ++ "/" ++ fname ≠ UPLOAD_DIR ++ "/" := fun h =>
    hn (string_append_right_empty (UPLOAD_DIR ++ "/") fname h)
  rw [saveFile, if_neg hne]

theorem detect_faces_invalid_eq (decode : List Nat → Option ColorImage)
    (cascade : Raster → Rect → Bool) (baseW baseH : Nat)
    (req : HttpRequest) (fs : Fs) (f : UploadedFile)
    (hf : List.lookup ("file") req.files = some f)
    (hn : secure_filename f.filename ≠ "")
    (hdec : decode f.content = none) :
    detect_faces decode cascade baseW baseH req fs =
      (HandlerResult.response (ResponseBody.errorBody ("invalid image")) 400,
        (UPLOAD_DIR ++ "/" ++ secure_filename f.filename, f.content) :: fs) := by
  simp only [detect_faces, hf, saveFile_ok fs (secure_filename f.filename) f.content hn,
    imread, List.lookup, beq_self_eq_true, Option.some_bind, hdec]

theorem detect_faces_success_eq (decode : List Nat → Option ColorImage)
    (cascade : Raster → Rect → Bool) (baseW baseH : Nat)
    (req : HttpRequest) (fs : Fs) (f : UploadedFile) (img : ColorImage)
    (hf : List.lookup ("file") req.files = some f)
    (hn : secure_filename f.filename ≠ "")
    (hdec : decode f.content = some img) :
    detect_faces decode cascade baseW baseH req fs =
      (HandlerResult.response (ResponseBody.successBody
          (detectMultiScale cascade baseW baseH (cvtGray img) ⟨11, 10, 5⟩)
          (detectMultiScale cascade baseW baseH (cvtGray img) ⟨11, 10, 5⟩).length) 200,
        (UPLOAD_DIR ++ "/" ++ secure_filename f.filename, f.content) :: fs) := by
  simp only [detect_faces, hf, saveFile_ok fs (secure_filename f.filename) f.content hn,
    imread, List.lookup, beq_self_eq_true, Option.some_bind, hdec]

/-! The claims. -/

/-- C1: every successful detection response serializes the boxes sequence
together with a count field equal to the length of that sequence, with the
success status 200. -/
theorem C1_success_count_eq_length (decode : List Nat → Option ColorImage)
    (cascade : Raster → Rect → Bool) (baseW baseH : Nat)
    (req : HttpRequest) (fs : Fs) (boxes : List Rect) (count status : Nat)
    (fs' : Fs)
    (h : detect_faces decode cascade baseW baseH req fs =
      (HandlerResult.response (ResponseBody.successBody boxes count) status, fs')) :
    count = boxes.length ∧ status = 200 := by
  unfold detect_faces at h
  cases hl : List.lookup ("file") req.files with
  | none =>
    rw [hl] at h
    simp at h
  | some f =>
    rw [hl] at h
    simp only at h
    cases hs : saveFile fs (UPLOAD_DIR ++ "/" ++ secure_filename f.filename)
        f.content with
    | error e =>
      rw [hs] at h
      simp at h
    | ok fs2 =>
      rw [hs] at h
      simp only at h
      cases hi : imread decode fs2 (UPLOAD_DIR ++ "/" ++ secure_filename f.filename) with
      | none =>
        rw [hi] at h
        simp at h
      | some img =>
        rw [hi] at h
        simp only [Prod.mk.injEq, HandlerResult.response.injEq,
          ResponseBody.successBody.injEq] at h
        obtain ⟨⟨⟨hb, hc⟩, hst⟩, -⟩ := h
        subst hb
        exact ⟨hc.symm, hst.symm⟩

/-- C1 witness: a concrete successful run (tiny valid image, no detections)
whose count 0 equals the length of its empty boxes sequence. -/
theorem C1_witness : (0 : Nat) = ([] : List Rect).length ∧ (200 : Nat) = 200 :=
  C1_success_count_eq_length (fun _ => some ⟨1, 1, [[(0, 0, 0)]]⟩)
    (fun _ _ => true) 24 24 ⟨[("file", ⟨"a.jpg", [7]⟩)]⟩ [] [] 0 200
    ([("uploads/a.jpg", [7])]) (by decide)

/-- C2: every box of a detection run on a raster lies inside the raster,
with nonnegative coordinates and positive width and height, whenever the
base window is nonempty and the scale factor is at least one. -/
theorem C2_boxes_within_raster (cascade : Raster → Rect → Bool)
    (baseW baseH : Nat) (r : Raster) (p : DetectParams)
    (hbW : 1 ≤ baseW) (hbH : 1 ≤ baseH)
    (hnd : p.sfDen ≤ p.sfNum) (hd : 0 < p.sfDen) (b : Rect)
    (hb : b ∈ detectMultiScale cascade baseW baseH r p) :
    0 ≤ b.x ∧ 0 ≤ b.y ∧ b.x + b.w ≤ r.width ∧ b.y + b.h ≤ r.height ∧
      0 < b.w ∧ 0 < b.h := by
  rw [detectMultiScale] at hb
  rcases mem_groupRects p.minNeighbors _ b hb with hmem | ⟨g, hg, hsub, havg⟩
  · obtain ⟨h1, h2, h3, h4⟩ :=
      mem_candidates cascade baseW baseH p.sfNum p.sfDen r b hnd hd hmem
    exact ⟨Nat.zero_le _, Nat.zero_le _, h1, h2, by omega, by omega⟩
  · have hx := avg_pair_le g Rect.x Rect.w r.width hg (fun m hm =>
      (mem_candidates cascade baseW baseH p.sfNum p.sfDen r m hnd hd (hsub m hm)).1)
    have hy := avg_pair_le g Rect.y Rect.h r.height hg (fun m hm =>
      (mem_candidates cascade baseW baseH p.sfNum p.sfDen r m hnd hd (hsub m hm)).2.1)
    have hw := le_avg_map g Rect.w 1 hg (fun m hm => le_trans hbW
      (mem_candidates cascade baseW baseH p.sfNum p.sfDen r m hnd hd (hsub m hm)).2.2.1)
    have hh := le_avg_map g Rect.h 1 hg (fun m hm => le_trans hbH
      (mem_candidates cascade baseW baseH p.sfNum p.sfDen r m hnd hd (hsub m hm)).2.2.2)
    subst havg
    exact ⟨Nat.zero_le _, Nat.zero_le _, hx, hy, hw, hh⟩

/-- C2 witness: a concrete detected box on a one-pixel raster satisfies the
bounds. -/
theorem C2_witness :
    (⟨0, 0, 1, 1⟩ : Rect) ∈
      detectMultiScale (fun _ _ => true) 1 1 ⟨1, 1, [[0]]⟩ ⟨11, 10, 0⟩ ∧
    ((0 : Nat) ≤ 0 ∧ (0 : Nat) ≤ 0 ∧ 0 + 1 ≤ 1 ∧ 0 + 1 ≤ 1 ∧
      (0 : Nat) < 1 ∧ (0 : Nat) < 1) :=
  ⟨by decide, C2_boxes_within_raster (fun _ _ => true) 1 1 ⟨1, 1, [[0]]⟩
    ⟨11, 10, 0⟩ (by decide) (by decide) (by decide) (by decide)
    ⟨0, 0, 1, 1⟩ (by decide)⟩

/-- C3: evaluating the handler at the failing input: a request carrying a
file part whose filename sanitizes to the empty string and whose byte buffer
does not decode to any image. The handler raises IsADirectoryError instead
of returning the invalid-image client-error response the claim requires. -/
theorem C3_crash_on_undecodable_buffer_eval :
    detect_faces (fun _ => none) (fun _ _ => true) 24 24
      ⟨[("file", ⟨"", []⟩)]⟩ [] =
      (HandlerResult.exception ("IsADirectoryError"), []) := by
  decide

/-- C4: detection is deterministic: runs on an identical raster with
identical parameters return an identical box list. -/
theorem C4_deterministic (cascade : Raster → Rect → Bool) (baseW baseH : Nat)
    (r1 r2 : Raster) (p1 p2 : DetectParams) (hr : r1 = r2) (hp : p1 = p2) :
    detectMultiScale cascade baseW baseH r1 p1 =
      detectMultiScale cascade baseW baseH r2 p2 := by
  rw [hr, hp]

/-- C4 witness: two runs on a concrete raster and parameters agree. -/
theorem C4_witness :
    detectMultiScale (fun _ _ => true) 1 1 ⟨1, 1, [[0]]⟩ ⟨11, 10, 0⟩ =
      detectMultiScale (fun _ _ => true) 1 1 ⟨1, 1, [[0]]⟩ ⟨11, 10, 0⟩ :=
  C4_deterministic (fun _ _ => true) 1 1 ⟨1, 1, [[0]]⟩ ⟨1, 1, [[0]]⟩
    ⟨11, 10, 0⟩ ⟨11, 10, 0⟩ rfl rfl

/-- C5: a decodable upload whose raster is smaller than the base detection
window (hence smaller at every scale, the scale factor being at least one)
produces the successful empty response with count 0 and status 200, not an
error. -/
theorem C5_small_raster_empty_success (decode : List Nat → Option ColorImage)
    (cascade : Raster → Rect → Bool) (baseW baseH : Nat)
    (req : HttpRequest) (fs : Fs) (f : UploadedFile) (img : ColorImage)
    (hf : List.lookup ("file") req.files = some f)
    (hn : secure_filename f.filename ≠ "")
    (hdec : decode f.content = some img)
    (hsmall : img.width < baseW ∨ img.height < baseH) :
    (detect_faces decode cascade baseW baseH req fs).1 =
      HandlerResult.response (ResponseBody.successBody [] 0) 200 := by
  rw [detect_faces_success_eq decode cascade baseW baseH req fs f img hf hn hdec]
  have hz : detectMultiScale cascade baseW baseH (cvtGray img) ⟨11, 10, 5⟩ = [] :=
    detectMultiScale_small cascade baseW baseH (cvtGray img) ⟨11, 10, 5⟩
      (by decide) (by decide) hsmall
  rw [hz]
  rfl

/-- C5 witness: a one-pixel upload against the 24-pixel base window returns
the empty success response. -/
theorem C5_witness :
    (detect_faces (fun _ => some ⟨1, 1, [[(0, 0, 0)]]⟩) (fun _ _ => true) 24 24
      ⟨[("file", ⟨"a.jpg", [7]⟩)]⟩ []).1 =
      HandlerResult.response (ResponseBody.successBody [] 0) 200 :=
  C5_small_raster_empty_success (fun _ => some ⟨1, 1, [[(0, 0, 0)]]⟩)
    (fun _ _ => true) 24 24 ⟨[("file", ⟨"a.jpg", [7]⟩)]⟩ [] ⟨"a.jpg", [7]⟩
    ⟨1, 1, [[(0, 0, 0)]]⟩ (by decide) (by decide) (by decide) (by decide)

/-- C6: a request without a file part gets the no-file error string with the
client-error status 400, for every decoder and cascade alike and with the
filesystem untouched — neither decoding nor detection runs. -/
theorem C6_missing_file_error (decode : List Nat → Option ColorImage)
    (cascade : Raster → Rect → Bool) (baseW baseH : Nat)
    (req : HttpRequest) (fs : Fs)
    (hf : List.lookup ("file") req.files = none) :
    detect_faces decode cascade baseW baseH req fs =
      (HandlerResult.response (ResponseBody.errorBody ("no file")) 400, fs) := by
  simp only [detect_faces, hf]

/-- C6 witness: the empty request draws the no-file client error. -/
theorem C6_witness :
    detect_faces (fun _ => none) (fun _ _ => true) 24 24 ⟨[]⟩ [] =
      (HandlerResult.response (ResponseBody.errorBody ("no file")) 400, []) :=
  C6_missing_file_error (fun _ => none) (fun _ _ => true) 24 24 ⟨[]⟩ [] (by decide)

/-- C7: with minNeighbors zero, detection returns exactly the raw candidate
windows, unmerged and unfiltered, so at least as many boxes as there are raw
candidates. -/
theorem C7_min_neighbors_zero_raw (cascade : Raster → Rect → Bool)
    (baseW baseH : Nat) (r : Raster) (p : DetectParams)
    (h0 : p.minNeighbors = 0) :
    detectMultiScale cascade baseW baseH r p =
      candidates cascade baseW baseH p.sfNum p.sfDen r ∧
    (candidates cascade baseW baseH p.sfNum p.sfDen r).length ≤
      (detectMultiScale cascade baseW baseH r p).length := by
  have he : detectMultiScale cascade baseW baseH r p =
      candidates cascade baseW baseH p.sfNum p.sfDen r := by
    rw [detectMultiScale, groupRects, if_pos h0]
  exact ⟨he, he ▸ le_refl _⟩

/-- C7 witness: on a concrete two-pixel raster with an always-true cascade,
minNeighbors zero returns all raw candidates. -/
theorem C7_witness :
    detectMultiScale (fun _ _ => true) 1 1 ⟨2, 1, [[0, 0]]⟩ ⟨11, 10, 0⟩ =
      candidates (fun _ _ => true) 1 1 11 10 ⟨2, 1, [[0, 0]]⟩ ∧
    (candidates (fun _ _ => true) 1 1 11 10 ⟨2, 1, [[0, 0]]⟩).length ≤
      (detectMultiScale (fun _ _ => true) 1 1 ⟨2, 1, [[0, 0]]⟩ ⟨11, 10, 0⟩).length :=
  C7_min_neighbors_zero_raw (fun _ _ => true) 1 1 ⟨2, 1, [[0, 0]]⟩
    ⟨11, 10, 0⟩ (by decide)

/-- C8: evaluating the handler at the failing input: whatever the request
and however the service is started, the detection call always receives the
same hardcoded parameters — scale factor 11/10 (1.1) and minNeighbors 5;
there is no configuration input that could override them. -/
theorem C8_params_hardcoded (decode : List Nat → Option ColorImage)
    (cascade : Raster → Rect → Bool) (baseW baseH : Nat)
    (req : HttpRequest) (fs : Fs) (f : UploadedFile) (img : ColorImage)
    (hf : List.lookup ("file") req.files = some f)
    (hn : secure_filename f.filename ≠ "")
    (hdec : decode f.content = some img) :
    (detect_faces decode cascade baseW baseH req fs).1 =
      HandlerResult.response (ResponseBody.successBody
        (detectMultiScale cascade baseW baseH (cvtGray img) ⟨11, 10, 5⟩)
        (detectMultiScale cascade baseW baseH (cvtGray img) ⟨11, 10, 5⟩).length)
        200 := by
  rw [detect_faces_success_eq decode cascade baseW baseH req fs f img hf hn hdec]

/-- C8 witness: a concrete request whose detection runs with the hardcoded
parameters 11/10 and 5. -/
theorem C8_witness :
    (detect_faces (fun _ => some ⟨1, 1, [[(0, 0, 0)]]⟩) (fun _ _ => true) 24 24
      ⟨[("file", ⟨"a.jpg", [7]⟩)]⟩ []).1 =
      HandlerResult.response (ResponseBody.successBody
        (detectMultiScale (fun _ _ => true) 24 24 (cvtGray ⟨1, 1, [[(0, 0, 0)]]⟩)
          ⟨11, 10, 5⟩)
        (detectMultiScale (fun _ _ => true) 24 24 (cvtGray ⟨1, 1, [[(0, 0, 0)]]⟩)
          ⟨11, 10, 5⟩).length) 200 :=
  C8_params_hardcoded (fun _ => some ⟨1, 1, [[(0, 0, 0)]]⟩) (fun _ _ => true)
    24 24 ⟨[("file", ⟨"a.jpg", [7]⟩)]⟩ [] ⟨"a.jpg", [7]⟩ ⟨1, 1, [[(0, 0, 0)]]⟩
    (by decide) (by decide) (by decide)

/-- C9 counterexample: after a concrete request completes, the uploaded
bytes remain stored in the uploads directory — the filesystem outside the
request has changed, refuting that no state survives the call and that the
core performs no filesystem access. -/
theorem C9_counterexample :
    (detect_faces (fun _ => none) (fun _ _ => true) 24 24
      ⟨[("file", ⟨"a.jpg", [7]⟩)]⟩ []).2 = [("uploads/a.jpg", [7])] ∧
    [("uploads/a.jpg", [7])] ≠ ([] : Fs) := by
  decide

/-- C9 amended: the handler writes the upload to the uploads directory
before decoding, decoding reads that file back from disk, and the saved file
persists in the filesystem after the request completes, on success and on
decode failure alike. -/
theorem C9_upload_persists (decode : List Nat → Option ColorImage)
    (cascade : Raster → Rect → Bool) (baseW baseH : Nat)
    (req : HttpRequest) (fs : Fs) (f : UploadedFile)
    (hf : List.lookup ("file") req.files = some f)
    (hn : secure_filename f.filename ≠ "") :
    (detect_faces decode cascade baseW baseH req fs).2 =
      (UPLOAD_DIR ++ "/" ++ secure_filename f.filename, f.content) :: fs := by
  cases hdec : decode f.content with
  | none =>
    rw [detect_faces_invalid_eq decode cascade baseW baseH req fs f hf hn hdec]
  | some img =>
    rw [detect_faces_success_eq decode cascade baseW baseH req fs f img hf hn hdec]

/-- C9 amended witness: a concrete upload persists after the request. -/
theorem C9_witness :
    (detect_faces (fun _ => none) (fun _ _ => true) 24 24
      ⟨[("file", ⟨"b.png", [1, 2]⟩)]⟩ []).2 =
      (UPLOAD_DIR ++ "/" ++ secure_filename ("b.png"), [1, 2]) :: [] :=
  C9_upload_persists (fun _ => none) (fun _ _ => true) 24 24
    ⟨[("file", ⟨"b.png", [1, 2]⟩)]⟩ [] ⟨"b.png", [1, 2]⟩ (by decide) (by decide)

/-- C10: a request with a file part whose declared filename sanitizes to the
empty string makes the save path degenerate to the upload directory itself,
and the handler raises an unhandled IsADirectoryError instead of returning
an error-mapping client-error response. -/
theorem C10_empty_filename_crash (decode : List Nat → Option ColorImage)
    (cascade : Raster → Rect → Bool) (baseW baseH : Nat)
    (req : HttpRequest) (fs : Fs) (f : UploadedFile)
    (hf : List.lookup ("file") req.files = some f)
    (hn : secure_filename f.filename = "") :
    UPLOAD_DIR ++ "/" ++ secure_filename f.filename = UPLOAD_DIR ++ "/" ∧
    detect_faces decode cascade baseW baseH req fs =
      (HandlerResult.exception ("IsADirectoryError"), fs) := by
  have hpath : UPLOAD_DIR ++ "/" ++ secure_filename f.filename =
      UPLOAD_DIR ++ "/" := by
    rw [hn]
    exact String.append_empty _
  refine ⟨hpath, ?_⟩
  simp [detect_faces, hf, hpath, saveFile]

/-- C10 witness: an uploaded file declared with the empty filename crashes
the handler. -/
theorem C10_witness :
    UPLOAD_DIR ++ "/" ++ secure_filename ("") = UPLOAD_DIR ++ "/" ∧
    detect_faces (fun _ => some ⟨1, 1, [[(0, 0, 0)]]⟩) (fun _ _ => true) 24 24
      ⟨[("file", ⟨"", [7]⟩)]⟩ [] =
      (HandlerResult.exception ("IsADirectoryError"), []) :=
  C10_empty_filename_crash (fun _ => some ⟨1, 1, [[(0, 0, 0)]]⟩)
    (fun _ _ => true) 24 24 ⟨[("file", ⟨"", [7]⟩)]⟩ [] ⟨"", [7]⟩
    (by decide) (by decide)
